import Mathlib

/-!
Verification development for the opencode MCP bridge
(`cmd/mcpserver/main.go`): a shallow embedding of the server's data
model and of the handlers the specification talks about, together with
theorems settling the spec's claims.

Conventions of the embedding:
* Go `map[string]any` values produced by `json.Unmarshal` are modelled
  by the inductive `JVal` / association lists `JObj`; a Go type
  assertion `v.(string)` with its `ok` flag becomes `asString`.
* `json.Unmarshal` applied to one stdout line is an external collaborator
  (Go standard library); it is passed in as a function
  `decode : String → Option JObj` (`none` = decoding error).
* The filesystem consulted by `os.Stat` is passed in as
  `stat : String → Option FileStat`.
* Subprocess behaviour is passed in as plain data (the stdout lines, the
  captured stderr text and the exit code); spawning a process is recorded
  in an explicit spawn list or in the action trace.
-/

namespace OpencodeMcp

/-- JSON values as decoded by Go `encoding/json` into `any`
(numbers are modelled as integers; no claim depends on numeric payloads). -/
inductive JVal where
  | jnull
  | jbool (b : Bool)
  | jnum (n : Int)
  | jstr (s : String)
  | jarr (elems : List JVal)
  | jobj (fields : List (String × JVal))
deriving Repr, Inhabited

/-- A decoded JSON object, as Go's `map[string]any`. -/
abbrev JObj := List (String × JVal)

/-- Map lookup `event["key"]` (presence flag folded into `Option`). -/
def jget (o : JObj) (k : String) : Option JVal :=
  (o.find? (fun p => p.1 == k)).map (·.2)

/-- Go type assertion `v.(string)` with `ok` flag. -/
def asString : Option JVal → Option String
  | some (.jstr s) => some s
  | _ => none

/-- Go type assertion `v.(map[string]any)` with `ok` flag. -/
def asObj : Option JVal → Option JObj
  | some (.jobj o) => some o
  | _ => none

/-- The idiom `x, _ := event["key"].(string)` (zero value on failure). -/
def getString (o : JObj) (k : String) : String :=
  (asString (jget o k)).getD ""

-- Tool names, from the `const` block of `main.go`.

def toolExec : String := "opencode_exec"
def toolRun : String := "opencode_run"
def toolModels : String := "opencode_models"
def toolSessionList : String := "opencode_session_list"
def toolAgentList : String := "opencode_agent_list"

/-- `extractEventData` from `main.go`: extracts readable content from one
decoded opencode-cli JSON event. Returns a bare string for text events,
a freshly built object for tool-use and step events, and the original
event object otherwise. -/
def extractEventData (event : JObj) : JVal :=
  let eventType := getString event "type"
  match asObj (jget event "part") with
  | none => .jobj event
  | some part =>
    if eventType = "text" then
      match asString (jget part "text") with
      | some t => .jstr t
      | none => .jobj event
    else if eventType = "tool_use" then
      let toolName := getString part "tool"
      match asObj (jget part "state") with
      | some state =>
        let status := getString state "status"
        let r0 : JObj := [("tool", .jstr toolName), ("status", .jstr status)]
        let r1 : JObj :=
          match asObj (jget state "input") with
          | some inp => r0 ++ [("input", .jobj inp)]
          | none => r0
        let r2 : JObj :=
          match jget state "output" with
          | some outv => r1 ++ [("output", outv)]
          | none => r1
        let r3 : JObj :=
          match asString (jget state "error") with
          | some e => if e ≠ "" then r2 ++ [("error", .jstr e)] else r2
          | none => r2
        .jobj r3
      | none => .jobj [("tool", .jstr toolName), ("status", .jstr "unknown")]
    else if eventType = "step_start" then
      .jobj [("type", .jstr "step_start"), ("reason", .jstr (getString part "reason"))]
    else if eventType = "step_finish" then
      .jobj [("type", .jstr "step_finish"), ("reason", .jstr (getString part "reason"))]
    else .jobj event

/-- `toolCallResult`: the terminal MCP result payload (`content` holds a
single text block, so only its text is kept) with the `isError` flag. -/
structure ToolCallResult where
  text : String
  isError : Bool
deriving Repr, DecidableEq

/-- One SSE frame written by `handleToolsCallSSE`:
`progressNote` is a `notifications/progress` frame written by
`sendProgress`, `messageNote` a `notifications/message` frame for a
classified event, `rawNote` the `notifications/progress` frame for a raw
(non-JSON) line, and `terminal` the final frame carrying the JSON-RPC
result envelope. -/
inductive Frame where
  | progressNote (progress : Nat) (message : String)
  | messageNote (eventType : String) (data : JVal)
  | rawNote (line : String)
  | terminal (result : ToolCallResult)
deriving Repr

/-- Mutable loop state of `handleToolsCallSSE`:
`textCollector`, `toolOutputs` and `eventCount`. -/
structure StreamState where
  text : String
  toolOutputs : List String
  eventCount : Nat
deriving Repr, DecidableEq

def initialStreamState : StreamState := ⟨"", [], 0⟩

/-- The raw-line branch of the scan loop (`main.go` lines 1126-1140):
the line is appended to the text collector with a newline and one
`notifications/progress` frame is emitted. -/
def rawLineStep (st : StreamState) (line : String) : StreamState × List Frame :=
  (⟨st.text ++ line ++ "\n", st.toolOutputs, st.eventCount + 1⟩, [.rawNote line])

/-- The JSON-event branch of the scan loop (`main.go` lines 1007-1123):
classification, collection into the aggregation state, the
`sendProgress` frames, then the `notifications/message` frame. -/
def eventStep (st : StreamState) (event : JObj) : StreamState × List Frame :=
  let eventType := getString event "type"
  let eventData := extractEventData event
  let n := st.eventCount + 1
  if eventType = "text" then
    match eventData with
    | .jstr t =>
        (⟨st.text ++ t, st.toolOutputs, n⟩,
         [.progressNote n (st.text ++ t), .messageNote eventType eventData])
    | _ => (⟨st.text, st.toolOutputs, n⟩, [.messageNote eventType eventData])
  else if eventType = "tool_use" then
    match eventData with
    | .jobj m =>
      let toolName := getString m "tool"
      let status := getString m "status"
      if status = "completed" then
        let touts :=
          if toolName ≠ "" then
            match asString (jget m "output") with
            | some out =>
                if out ≠ "" then st.toolOutputs ++ ["[Tool: " ++ toolName ++ "]\n" ++ out]
                else st.toolOutputs
            | none => st.toolOutputs
          else st.toolOutputs
        (⟨st.text, touts, n⟩,
         [.progressNote n ("Tool " ++ toolName ++ " completed"),
          .messageNote eventType eventData])
      else (⟨st.text, st.toolOutputs, n⟩, [.messageNote eventType eventData])
    | _ => (⟨st.text, st.toolOutputs, n⟩, [.messageNote eventType eventData])
  else if eventType = "step_start" ∨ eventType = "step_finish" then
    match eventData with
    | .jobj m =>
      let reason := getString m "reason"
      let msg := if reason ≠ "" then eventType ++ ": " ++ reason else eventType
      (⟨st.text, st.toolOutputs, n⟩,
       [.progressNote n msg, .messageNote eventType eventData])
    | _ => (⟨st.text, st.toolOutputs, n⟩, [.messageNote eventType eventData])
  else (⟨st.text, st.toolOutputs, n⟩, [.messageNote eventType eventData])

/-- One iteration of the scan loop: empty lines are skipped; for the
`opencode_run` tool a line is decoded as JSON and classified, any other
line (and every line of the other tools) goes through the raw branch. -/
def lineStep (name : String) (decode : String → Option JObj)
    (st : StreamState) (line : String) : StreamState × List Frame :=
  if line = "" then (st, [])
  else if name = toolRun then
    match decode line with
    | some event => eventStep st event
    | none => rawLineStep st line
  else rawLineStep st line

/-- The whole scan loop over the subprocess's stdout lines. -/
def scanLoop (name : String) (decode : String → Option JObj)
    (st : StreamState) : List String → StreamState × List Frame
  | [] => (st, [])
  | l :: ls =>
    let step := lineStep name decode st l
    let rest := scanLoop name decode step.1 ls
    (rest.1, step.2 ++ rest.2)

/-- Composition of the final result text (`main.go` lines 1152-1171):
collected text, then the labelled tool-outputs section when any tool
output was collected, then the labelled stderr section when stderr is
non-empty, then the exit-code marker when the exit code is non-zero. -/
def composeResult (st : StreamState) (stderr : String) (exitCode : Int) : String :=
  let r0 := st.text
  let r1 :=
    if st.toolOutputs ≠ [] then
      (if r0 ≠ "" then r0 ++ "\n\n--- Tool Outputs ---\n" else "--- Tool Outputs ---\n")
        ++ String.intercalate "\n\n" st.toolOutputs
    else r0
  let r2 :=
    if stderr ≠ "" then
      (if r1 ≠ "" then r1 ++ "\n\n" else r1) ++ "[stderr]\n" ++ stderr
    else r1
  if exitCode ≠ 0 then r2 ++ "\n[exit code: " ++ toString exitCode ++ "]" else r2

/-- The terminal JSON-RPC result (`main.go` lines 1187-1190). -/
def terminalResult (st : StreamState) (stderr : String) (exitCode : Int) : ToolCallResult :=
  ⟨composeResult st stderr exitCode, exitCode != 0⟩

/-- Observable actions of one invocation: an SSE frame written to the
peer, or the return of `cmd.Wait` with the computed exit code. -/
inductive Action where
  | emit (f : Frame)
  | waited (exitCode : Int)
deriving Repr

/-- The streaming part of `handleToolsCallSSE` (everything after the
subprocess has started, `main.go` lines 996-1199) as the trace of
actions it performs: the per-line frames, then `cmd.Wait`, then the one
terminal frame. -/
def handleToolsCallStream (name : String) (decode : String → Option JObj)
    (lines : List String) (stderr : String) (exitCode : Int) : List Action :=
  let run := scanLoop name decode initialStreamState lines
  run.2.map Action.emit
    ++ [Action.waited exitCode,
        Action.emit (.terminal (terminalResult run.1 stderr exitCode))]

/-! ### Working-directory validation and the setup phase of `tools/call` -/

/-- Result of `os.Stat` on a path (external collaborator): `none` when
the path does not exist (or stat fails), otherwise the file's metadata. -/
structure FileStat where
  isDir : Bool
deriving Repr, DecidableEq

/-- `validateCwd` from `main.go`: an empty cwd is accepted, a path that
fails `os.Stat` or is not a directory is rejected with an error message. -/
def validateCwd (stat : String → Option FileStat) (cwd : String) : Option String :=
  if cwd = "" then none
  else
    match stat cwd with
    | none => some "invalid cwd: stat failed"
    | some info => if !info.isDir then some "invalid cwd: not a directory" else none

/-- `execArgs`: decoded arguments of the `opencode_exec` tool. -/
structure ExecArgs where
  args : List String
  cwd : String
  stdin : String
deriving Repr, DecidableEq

/-- Decoded arguments of the `opencode_run` tool (the anonymous struct
in `handleToolsCallSSE`). -/
structure RunArgs where
  message : String
  cwd : String
  model : String
  session : String
  cont : Bool
  files : List String
deriving Repr, DecidableEq

/-- `json.Unmarshal` of an object field into a Go `string`: an absent
field or JSON `null` leaves the zero value, a JSON string is taken, any
other shape is a decoding error. -/
def unmarshalString (o : JObj) (k : String) : Option String :=
  match jget o k with
  | none => some ""
  | some .jnull => some ""
  | some (.jstr s) => some s
  | some _ => none

/-- `json.Unmarshal` of an object field into a Go `bool`. -/
def unmarshalBool (o : JObj) (k : String) : Option Bool :=
  match jget o k with
  | none => some false
  | some .jnull => some false
  | some (.jbool b) => some b
  | some _ => none

/-- `json.Unmarshal` of an object field into a Go `[]string`. -/
def unmarshalStringList (o : JObj) (k : String) : Option (List String) :=
  match jget o k with
  | none => some []
  | some .jnull => some []
  | some (.jarr xs) =>
      xs.mapM fun v => match v with | .jstr s => some s | _ => none
  | some _ => none

/-- `json.Unmarshal(params.Arguments, &args)` for `execArgs`. -/
def decodeExecArgs (o : JObj) : Option ExecArgs := do
  let args ← unmarshalStringList o "args"
  let cwd ← unmarshalString o "cwd"
  let stdin ← unmarshalString o "stdin"
  pure ⟨args, cwd, stdin⟩

/-- `json.Unmarshal(params.Arguments, &runArgs)` for the run tool. -/
def decodeRunArgs (o : JObj) : Option RunArgs := do
  let message ← unmarshalString o "message"
  let cwd ← unmarshalString o "cwd"
  let model ← unmarshalString o "model"
  let session ← unmarshalString o "session"
  let cont ← unmarshalBool o "continue"
  let files ← unmarshalStringList o "files"
  pure ⟨message, cwd, model, session, cont, files⟩

/-! ### Model cache and default-model selection -/

/-- State of the process-wide model cache: the cached list and whether
the cache entry is still within its TTL. -/
structure ModelCache where
  models : List String
  withinTTL : Bool
deriving Repr, DecidableEq

/-- `strings.Contains`. -/
def strContains (s sub : String) : Bool := decide (sub.data <:+: s.data)

/-- `strings.Fields`: whitespace-separated fields of a line. -/
def fields (line : String) : List String :=
  (line.split Char.isWhitespace).filter (· ≠ "")

/-- The line-parsing part of `fetchAvailableModels`: split the stdout of
the `models` subcommand into lines, drop blanks, comments and the
`Available` banner, and keep the first field of each remaining line. -/
def parseModelsOutput (output : String) : List String :=
  ((output.splitOn "\n").map String.trim).filterMap fun line =>
    if line ≠ "" ∧ ¬ line.startsWith "#" ∧ ¬ line.startsWith "Available" then
      (fields line).head?
    else none

/-- `fetchAvailableModels` from `main.go`: answer from the cache when it
is fresh, otherwise spawn `<target> models` (recorded in the returned
spawn list; `modelsOut = none` models a failed launch/run) and parse its
output. -/
def fetchAvailableModels (cache : ModelCache) (modelsOut : Option String) :
    List String × List (List String) :=
  if cache.models ≠ [] ∧ cache.withinTTL then (cache.models, [])
  else
    match modelsOut with
    | none => ([], [["models"]])
    | some out => (parseModelsOutput out, [["models"]])

/-- The preferred-model list of `getDefaultModel`. -/
def preferredModels : List String :=
  ["github-copilot/gpt-5.2-codex",
   "github-copilot/gpt-5.1-codex",
   "opencode/gpt-5.2-codex",
   "opencode/gpt-5.1-codex",
   "github-copilot/gpt-4o",
   "github-copilot/claude-sonnet-4.5"]

/-- The selection logic of `getDefaultModel` applied to a fetched model
list: exact preferred match, then substring match, then provider-prefix
match, then the first model, else empty (let opencode pick). -/
def selectDefaultModel (models : List String) : String :=
  match preferredModels.find? (fun p => models.contains p) with
  | some m => m
  | none =>
    match preferredModels.findSome? (fun p => models.find? (fun a => strContains a p)) with
    | some m => m
    | none =>
      match models.find? (fun a =>
          "github-copilot/".isPrefixOf a || "opencode/".isPrefixOf a) with
      | some m => m
      | none => models.headD ""

/-- `getDefaultModel`: fetch (possibly spawning the `models` subcommand)
then select; returns the chosen model together with the spawns performed. -/
def getDefaultModel (cache : ModelCache) (modelsOut : Option String) :
    String × List (List String) :=
  let fetched := fetchAvailableModels cache modelsOut
  (selectDefaultModel fetched.1, fetched.2)

/-! ### The validation/setup phase of `handleToolsCallSSE` -/

/-- Outcome of the setup phase: an immediate JSON-RPC error written by
`writeMCPError`, or the decision to launch the tool subprocess with the
built argument vector, working directory and stdin. -/
inductive SetupResult where
  | rpcError (code : Int) (message : String)
  | launch (cmdArgs : List String) (cwd : String) (stdin : String)
deriving Repr, DecidableEq

/-- Common tail of the setup phase (`main.go` lines 938-944): default the
working directory to the request-level one and validate it. The second
component records every subprocess spawned during setup. -/
def finishSetup (stat : String → Option FileStat) (cmdArgs : List String)
    (cwd stdin reqCwd : String) (spawns : List (List String)) :
    SetupResult × List (List String) :=
  let cwd := if cwd = "" then reqCwd else cwd
  match validateCwd stat cwd with
  | some err => (.rpcError (-32602) err, spawns)
  | none => (.launch cmdArgs cwd stdin, spawns)

/-- The validation/setup phase of `handleToolsCallSSE` (`main.go` lines
860-944): per-tool argument decoding and checks, command-vector
construction (including default-model resolution for `opencode_run`),
then working-directory validation. No tool subprocess is started here;
the spawn list records the `models` subcommand launched by
`getDefaultModel` when it runs. -/
def handleToolsCallSetup (stat : String → Option FileStat) (cache : ModelCache)
    (modelsOut : Option String) (name : String) (arguments : JObj)
    (reqCwd : String) : SetupResult × List (List String) :=
  if name = toolExec then
    match decodeExecArgs arguments with
    | none => (.rpcError (-32602) "invalid arguments", [])
    | some a =>
      if a.args = [] then (.rpcError (-32602) "missing args", [])
      else finishSetup stat a.args a.cwd a.stdin reqCwd []
  else if name = toolRun then
    match decodeRunArgs arguments with
    | none => (.rpcError (-32602) "invalid arguments", [])
    | some r =>
      if r.message = "" then (.rpcError (-32602) "missing message", [])
      else
        let md :=
          if r.model = "" then getDefaultModel cache modelsOut
          else (r.model, [])
        let cmdArgs :=
          ["run", "--format", "json"]
            ++ (if md.1 ≠ "" then ["--model", md.1] else [])
            ++ (if r.session ≠ "" then ["--session", r.session] else [])
            ++ (if r.cont then ["--continue"] else [])
            ++ (r.files.flatMap fun f => ["--file", f])
            ++ [r.message]
        finishSetup stat cmdArgs r.cwd "" reqCwd md.2
  else if name = toolModels then finishSetup stat ["models"] "" "" reqCwd []
  else if name = toolSessionList then finishSetup stat ["session", "list"] "" "" reqCwd []
  else if name = toolAgentList then finishSetup stat ["agent", "list"] "" "" reqCwd []
  else (.rpcError (-32602) ("unknown tool: " ++ name), [])

/-! ### The `/mcp` request router -/

/-- What the `/mcp` POST handler does with a decoded request body:
respond with a JSON-RPC error, answer the handshake, acknowledge a
notification, return the tool list, or invoke the tool bridge (the
production handler only ever uses the SSE bridge; the aggregated variant
`callToolAggregated` corresponds to the unused `handleToolsCall`). -/
inductive McpAction where
  | respondError (code : Int) (message : String)
  | respondInit
  | ack
  | respondToolsList
  | callToolSSE
  | callToolAggregated
deriving Repr, DecidableEq

/-- The method dispatch of the `/mcp` POST handler (`main.go` lines
175-227). `decodeOk` models whether the body decoded as JSON; `accept`
is the request's `Accept` header, which the production handler never
consults (`tools/call` is always routed to `handleToolsCallSSE`). -/
def dispatchMcp (decodeOk : Bool) (method : String) (_accept : String) : McpAction :=
  if !decodeOk then .respondError (-32700) "invalid JSON"
  else if method = "" then .respondError (-32600) "missing method"
  else if method = "initialize" then .respondInit
  else if method = "notifications/initialized" then .ack
  else if method = "tools/list" then .respondToolsList
  else if method = "tools/call" then .callToolSSE
  else .respondError (-32601) ("method not found: " ++ method)

/-! ### `runCommand` and the aggregated execution path -/

/-- Behaviour of one subprocess run under `exec.Cmd.Output` (external
collaborator): `startErr` models a launch failure, otherwise the
process's stdout, everything it wrote to stderr, and its exit code. -/
structure ProcBehaviour where
  startErr : Bool
  stdout : String
  stderr : String
  exitCode : Int
deriving Repr, DecidableEq

/-- `runCommand` from `main.go`: on success (`exit code 0`) the stderr
component returned is the empty string — `cmd.Output` only surfaces
captured stderr through the `ExitError` of a failing process. Returns
`(stdout, stderr, exitCode, errMessage?)`. -/
def runCommand (proc : ProcBehaviour) : String × String × Int × Option String :=
  if proc.startErr then ("", "", -1, some "start error")
  else if proc.exitCode = 0 then (proc.stdout, "", 0, none)
  else (proc.stdout, proc.stderr, proc.exitCode,
        some ("command failed: " ++ proc.stderr.trim))

/-! ### Session identifiers and the session store -/

/-- The sixteen lowercase hex digits used by Go `encoding/hex`. -/
def hexDigits : List Char := "0123456789abcdef".data

/-- One hex digit (`hextable[n]`). -/
def hexDigit (n : Nat) : Char := hexDigits.getD n '0'

/-- `encoding/hex` of one byte (value taken mod 256): high nibble then
low nibble. -/
def byteToHex (b : Nat) : List Char := [hexDigit (b % 256 / 16), hexDigit (b % 16)]

/-- `generateSessionID`: the hex encoding of the 16 random bytes read
from `crypto/rand` (the byte source is passed in as `entropy`). -/
def generateSessionID (entropy : List Nat) : String :=
  ⟨entropy.flatMap byteToHex⟩

/-- `session`: identifier plus creation time. -/
structure Session where
  id : String
  createdAt : Nat
deriving Repr, DecidableEq

/-- The backing map of `sessionStore` (a Go `map[string]*session`;
insertion is modelled by cons, lookup by first match, which realises
overwrite-on-duplicate semantics). -/
abbrev SessionMap := List (String × Session)

/-- `sessionStore.get`. -/
def storeGet (s : SessionMap) (id : String) : Option Session :=
  (s.find? (fun p => p.1 == id)).map (·.2)

/-- `sessionStore.create`: generate a fresh identifier from the random
bytes, build the session, insert it, return it. -/
def storeCreate (s : SessionMap) (entropy : List Nat) (now : Nat) :
    Session × SessionMap :=
  let id := generateSessionID entropy
  let sess : Session := ⟨id, now⟩
  (sess, (id, sess) :: s)

/-- Session maps reachable from the empty store through `create` (the
only mutation the source performs); `create` always hex-encodes a
16-byte buffer. -/
inductive ReachableStore : SessionMap → Prop where
  | empty : ReachableStore []
  | create (s : SessionMap) (entropy : List Nat) (now : Nat)
      (hs : ReachableStore s) (hlen : entropy.length = 16) :
      ReachableStore (storeCreate s entropy now).2

/-! ### Spec-side characterisation of the aggregation (for the
refinement claims): per-event text contribution and tool-output block,
stated stateless and order-preserving, following the spec's words
"concatenation of all text-event contents in arrival order" and "one
block per tool observed at completed status with non-empty output". -/

/-- The text contribution of one classified event per the spec: the
content of a text event, nothing otherwise. -/
def textPieceOf (e : JObj) : List String :=
  if getString e "type" = "text" then
    match extractEventData e with
    | .jstr t => [t]
    | _ => []
  else []

/-- The tool-output block of one classified event per the spec: one
labelled block for a tool-use event at `completed` status with a named
tool and non-empty string output, nothing otherwise. -/
def toolBlockOf (e : JObj) : List String :=
  if getString e "type" = "tool_use" then
    match extractEventData e with
    | .jobj m =>
      if getString m "status" = "completed" then
        if getString m "tool" ≠ "" then
          match asString (jget m "output") with
          | some out =>
              if out ≠ "" then ["[Tool: " ++ getString m "tool" ++ "]\n" ++ out]
              else []
          | none => []
        else []
      else []
    | _ => []
  else []

/-- All text-event contents of a decoded line stream, in arrival order. -/
def textEventContents (decode : String → Option JObj) (lines : List String) :
    List String :=
  lines.flatMap fun l => match decode l with | some e => textPieceOf e | none => []

/-- All completed-tool output blocks of a decoded line stream, in order. -/
def completedToolBlocks (decode : String → Option JObj) (lines : List String) :
    List String :=
  lines.flatMap fun l => match decode l with | some e => toolBlockOf e | none => []

/-! ### Concrete demonstration data (decoded events of the spec's
aggregation-order scenario) -/

/-- The decoded event `Text("A")`. -/
def evTextA : JObj := [("type", .jstr "text"), ("part", .jobj [("text", .jstr "A")])]

/-- The decoded event `ToolUse{tool: x, status: completed, output: B}`. -/
def evToolXB : JObj :=
  [("type", .jstr "tool_use"),
   ("part", .jobj [("tool", .jstr "x"),
                   ("state", .jobj [("status", .jstr "completed"),
                                    ("output", .jstr "B")])])]

/-- The decoded event `Text("C")`. -/
def evTextC : JObj := [("type", .jstr "text"), ("part", .jobj [("text", .jstr "C")])]

/-- A concrete stand-in for `json.Unmarshal` on three known stdout lines
(the line `badline` is not valid JSON and fails to decode). -/
def demoDecode : String → Option JObj := fun l =>
  if l = "lineA" then some evTextA
  else if l = "lineX" then some evToolXB
  else if l = "lineC" then some evTextC
  else none

/-! ### Derived views of the frame trace -/

/-- Whether a frame is the terminal response frame. -/
def isTerminalFrame : Frame → Bool
  | .terminal _ => true
  | _ => false

/-- Whether an action emits the terminal response frame. -/
def isTerminalAction : Action → Bool
  | .emit f => isTerminalFrame f
  | .waited _ => false

/-- The spec's domain events: one classified event per decoded line, one
raw/unrecognized event per line that failed to decode. -/
inductive DomainEvent where
  | classified (eventType : String) (data : JVal)
  | raw (line : String)
deriving Repr, Inhabited

/-- The domain events carried by a frame list: `notifications/message`
frames are classified events, raw-line `notifications/progress` frames
are raw events; synthetic progress summaries are not domain events. -/
def framesToEvents (fs : List Frame) : List DomainEvent :=
  fs.filterMap fun f =>
    match f with
    | .messageNote t d => some (.classified t d)
    | .rawNote l => some (.raw l)
    | _ => none

/-- Concatenation of a list of strings (in order, no separator). -/
def concatAll : List String → String
  | [] => ""
  | s :: ss => s ++ concatAll ss

/-! ### Helper lemmas -/

theorem concatAll_append (a b : List String) :
    concatAll (a ++ b) = concatAll a ++ concatAll b := by
  induction a with
  | nil => simp [concatAll, String.empty_append]
  | cons s ss ih => simp [concatAll, ih, String.append_assoc]

theorem eventStep_text (st : StreamState) (e : JObj) :
    (eventStep st e).1.text = st.text ++ concatAll (textPieceOf e) := by
  by_cases h1 : getString e "type" = "text"
  · rcases hd : extractEventData e with _ | b | n | t | xs | flds <;>
      simp [eventStep, textPieceOf, h1, hd, concatAll, String.append_empty]
  · simp only [eventStep, textPieceOf, if_neg h1]
    repeat' split
    all_goals simp [concatAll, String.append_empty]

theorem eventStep_tools (st : StreamState) (e : JObj) :
    (eventStep st e).1.toolOutputs = st.toolOutputs ++ toolBlockOf e := by
  by_cases h1 : getString e "type" = "text"
  · rcases hd : extractEventData e with _ | b | n | t | xs | flds <;>
      simp [eventStep, toolBlockOf, h1, hd]
  · by_cases h2 : getString e "type" = "tool_use"
    · simp only [eventStep, toolBlockOf, if_neg h1, if_pos h2]
      rcases hd : extractEventData e with _ | b | n | t | xs | m <;> simp only [hd] <;>
        (repeat' split) <;> simp_all
    · simp only [eventStep, toolBlockOf, if_neg h1, if_neg h2]
      rcases hd : extractEventData e with _ | b | n | t | xs | m <;> simp only [hd] <;>
        (repeat' split) <;> simp_all

theorem eventStep_events (st : StreamState) (e : JObj) :
    framesToEvents (eventStep st e).2
      = [.classified (getString e "type") (extractEventData e)] := by
  by_cases h1 : getString e "type" = "text"
  · rcases hd : extractEventData e with _ | b | n | t | xs | m <;>
      simp [eventStep, framesToEvents, h1, hd]
  · by_cases h2 : getString e "type" = "tool_use"
    · simp only [eventStep, if_neg h1, if_pos h2]
      rcases hd : extractEventData e with _ | b | n | t | xs | m <;> simp only [hd] <;>
        (try split_ifs) <;> simp [framesToEvents]
    · simp only [eventStep, if_neg h1, if_neg h2]
      rcases hd : extractEventData e with _ | b | n | t | xs | m <;> simp only [hd] <;>
        (try split_ifs) <;> simp [framesToEvents]

theorem eventStep_not_terminal (st : StreamState) (e : JObj) :
    ∀ f ∈ (eventStep st e).2, isTerminalFrame f = false := by
  intro f hf
  rcases f with p | td | l | r
  · rfl
  · rfl
  · rfl
  · exfalso
    revert hf
    by_cases h1 : getString e "type" = "text"
    · rcases hd : extractEventData e with _ | b | n | t | xs | m <;>
        simp [eventStep, h1, hd]
    · by_cases h2 : getString e "type" = "tool_use"
      · simp only [eventStep, if_neg h1, if_pos h2]
        rcases hd : extractEventData e with _ | b | n | t | xs | m <;> simp only [hd] <;>
          (try split_ifs) <;> simp
      · simp only [eventStep, if_neg h1, if_neg h2]
        rcases hd : extractEventData e with _ | b | n | t | xs | m <;> simp only [hd] <;>
          (try split_ifs) <;> simp

theorem lineStep_not_terminal (name : String) (decode : String → Option JObj)
    (st : StreamState) (l : String) :
    ∀ f ∈ (lineStep name decode st l).2, isTerminalFrame f = false := by
  intro f hf
  unfold lineStep rawLineStep at hf
  split_ifs at hf
  · simp at hf
  · revert hf
    split
    · exact fun hf => eventStep_not_terminal st _ f hf
    · intro hf; simp at hf; subst hf; rfl
  · simp at hf; subst hf; rfl

theorem scanLoop_not_terminal (name : String) (decode : String → Option JObj)
    (ls : List String) : ∀ st, ∀ f ∈ (scanLoop name decode st ls).2,
    isTerminalFrame f = false := by
  induction ls with
  | nil => intro st f hf; simp [scanLoop] at hf
  | cons l ls ih =>
    intro st f hf
    simp only [scanLoop, List.mem_append] at hf
    rcases hf with hf | hf
    · exact lineStep_not_terminal name decode st l f hf
    · exact ih _ f hf

theorem scanLoop_run_agg (decode : String → Option JObj) (ls : List String) :
    ∀ st, (∀ l ∈ ls, l ≠ "" ∧ (decode l).isSome) →
    (scanLoop toolRun decode st ls).1.text
        = st.text ++ concatAll (textEventContents decode ls)
    ∧ (scanLoop toolRun decode st ls).1.toolOutputs
        = st.toolOutputs ++ completedToolBlocks decode ls := by
  induction ls with
  | nil =>
    intro st _
    simp [scanLoop, textEventContents, completedToolBlocks, concatAll,
      String.append_empty]
  | cons l ls ih =>
    intro st h
    obtain ⟨hne, hsome⟩ := h l (List.mem_cons_self l ls)
    obtain ⟨e, he⟩ := Option.isSome_iff_exists.mp hsome
    have hstep : lineStep toolRun decode st l = eventStep st e := by
      simp [lineStep, hne, he]
    have ihr := ih (eventStep st e).1 (fun l' hl' => h l' (List.mem_cons_of_mem l hl'))
    have htec : textEventContents decode (l :: ls)
        = textPieceOf e ++ textEventContents decode ls := by
      simp [textEventContents, he]
    have hctb : completedToolBlocks decode (l :: ls)
        = toolBlockOf e ++ completedToolBlocks decode ls := by
      simp [completedToolBlocks, he]
    constructor
    · simp only [scanLoop, hstep, ihr.1, eventStep_text, htec, concatAll_append,
        String.append_assoc]
    · simp only [scanLoop, hstep, ihr.2, eventStep_tools, hctb, List.append_assoc]

theorem framesToEvents_append (a b : List Frame) :
    framesToEvents (a ++ b) = framesToEvents a ++ framesToEvents b := by
  simp [framesToEvents, List.filterMap_append]

theorem strAppend_ne_empty (a b : String) (h : a ≠ "") : a ++ b ≠ "" := by
  intro hab
  apply h
  have hd := congrArg String.data hab
  rw [String.data_append] at hd
  have ha : a.data = [] := (List.append_eq_nil.mp hd).1
  cases a with
  | mk d => exact congrArg String.mk ha

theorem composeResult_text_first (st : StreamState) (stderr : String)
    (exitCode : Int) : ∃ rest, composeResult st stderr exitCode = st.text ++ rest := by
  rcases eq_or_ne st.text "" with h0 | h0
  · exact ⟨composeResult st stderr exitCode, by rw [h0, String.empty_append]⟩
  · obtain ⟨r1, hr1⟩ : ∃ r1,
        (if st.toolOutputs ≠ [] then
          (if st.text ≠ "" then st.text ++ "\n\n--- Tool Outputs ---\n"
           else "--- Tool Outputs ---\n")
            ++ String.intercalate "\n\n" st.toolOutputs
         else st.text) = st.text ++ r1 := by
      rcases eq_or_ne st.toolOutputs [] with ht | ht
      · rw [if_neg (not_not_intro ht)]
        exact ⟨"", (String.append_empty _).symm⟩
      · rw [if_pos ht, if_pos h0]
        exact ⟨"\n\n--- Tool Outputs ---\n" ++ String.intercalate "\n\n" st.toolOutputs,
          by simp [String.append_assoc]⟩
    have hne : st.text ++ r1 ≠ "" := strAppend_ne_empty _ _ h0
    simp only [composeResult]
    rw [hr1, if_pos hne]
    split_ifs <;> (try simp only [String.append_assoc]) <;> exact ⟨_, rfl⟩

/-! ### Claim theorems -/

/-- C1: for every tool invocation that reaches the streaming phase of
`handleToolsCallSSE`, the action trace contains exactly one terminal
response frame, and it is emitted only after `cmd.Wait` has returned
(every action before the wait is a non-terminal frame). -/
theorem tools_call_exactly_one_terminal (name : String)
    (decode : String → Option JObj) (lines : List String) (stderr : String)
    (exitCode : Int) :
    ∃ pre result,
      handleToolsCallStream name decode lines stderr exitCode
        = pre ++ [Action.waited exitCode, Action.emit (.terminal result)]
      ∧ (∀ a ∈ pre, isTerminalAction a = false)
      ∧ (handleToolsCallStream name decode lines stderr exitCode).countP
          isTerminalAction = 1 := by
  have hpre : ∀ f ∈ (scanLoop name decode initialStreamState lines).2,
      isTerminalFrame f = false :=
    scanLoop_not_terminal name decode lines initialStreamState
  refine ⟨(scanLoop name decode initialStreamState lines).2.map Action.emit,
    terminalResult (scanLoop name decode initialStreamState lines).1 stderr exitCode,
    rfl, ?_, ?_⟩
  · intro a ha
    simp only [List.mem_map] at ha
    obtain ⟨f, hf, rfl⟩ := ha
    simpa [isTerminalAction] using hpre f hf
  · have hsplit : handleToolsCallStream name decode lines stderr exitCode
        = (scanLoop name decode initialStreamState lines).2.map Action.emit
          ++ [Action.waited exitCode,
              Action.emit (.terminal (terminalResult
                (scanLoop name decode initialStreamState lines).1 stderr exitCode))] :=
      rfl
    rw [hsplit, List.countP_append]
    have hz : ((scanLoop name decode initialStreamState lines).2.map
        Action.emit).countP isTerminalAction = 0 := by
      rw [List.countP_eq_zero]
      intro a ha
      simp only [List.mem_map] at ha
      obtain ⟨f, hf, rfl⟩ := ha
      simp [isTerminalAction, hpre f hf]
    rw [hz]
    rfl

/-- C2, counterexample: a `tools/call` request whose `Accept` header does
not contain the event-stream media type is still handled in live SSE
mode, not with an aggregated JSON body, so the claimed header-based mode
selection does not hold. -/
theorem accept_header_ignored_counterexample :
    dispatchMcp true "tools/call" "application/json" = .callToolSSE
    ∧ McpAction.callToolSSE ≠ McpAction.callToolAggregated :=
  ⟨rfl, by decide⟩

/-- C2, amended: every `tools/call` request on the `/mcp` endpoint is
handled in live SSE mode regardless of the `Accept` header; the
aggregated-JSON handler exists in the source but is never selected. -/
theorem tools_call_always_sse (accept : String) :
    dispatchMcp true "tools/call" accept = .callToolSSE := rfl

/-- C3: for `opencode_run` event streams, the aggregated text is the
concatenation of all text-event contents in arrival order and the
tool-output blocks are exactly the completed non-empty tool outputs in
order; the composed result always begins with the aggregated text; and
on the events Text(A), ToolUse(x, completed, B), Text(C) the final text
is exactly `AC` followed by the tool-outputs section with the single
block for `x` containing `B`. -/
theorem run_aggregation_order (decode : String → Option JObj)
    (lines : List String) (h : ∀ l ∈ lines, l ≠ "" ∧ (decode l).isSome) :
    (scanLoop toolRun decode initialStreamState lines).1.text
        = concatAll (textEventContents decode lines)
    ∧ (scanLoop toolRun decode initialStreamState lines).1.toolOutputs
        = completedToolBlocks decode lines
    ∧ (∀ st stderr exitCode, ∃ rest,
        composeResult st stderr exitCode = st.text ++ rest)
    ∧ composeResult (scanLoop toolRun demoDecode initialStreamState
          ["lineA", "lineX", "lineC"]).1 "" 0
        = "AC\n\n--- Tool Outputs ---\n[Tool: x]\nB"
    ∧ completedToolBlocks demoDecode ["lineA", "lineX", "lineC"] = ["[Tool: x]\nB"]
    ∧ textEventContents demoDecode ["lineA", "lineX", "lineC"] = ["A", "C"] := by
  obtain ⟨h1, h2⟩ := scanLoop_run_agg decode lines initialStreamState h
  exact ⟨by simpa [initialStreamState, String.empty_append] using h1,
    by simpa [initialStreamState] using h2,
    composeResult_text_first, rfl, rfl, rfl⟩

/-- Witness for C3 at the spec's concrete scenario. -/
theorem run_aggregation_order_witness :
    composeResult (scanLoop toolRun demoDecode initialStreamState
        ["lineA", "lineX", "lineC"]).1 "" 0
      = "AC\n\n--- Tool Outputs ---\n[Tool: x]\nB" :=
  (run_aggregation_order demoDecode ["lineA", "lineX", "lineC"]
    (by decide)).2.2.2.1

/-- C4: a stdout stream whose middle line fails to decode as JSON still
yields exactly two classified domain events plus one raw/unrecognized
event for the malformed line, in order, none dropped and none
duplicated; parsing continues past the malformed line. -/
theorem malformed_line_tolerance (decode : String → Option JObj)
    (l1 l2 l3 : String) (e1 e3 : JObj)
    (h1 : decode l1 = some e1) (h2 : decode l2 = none) (h3 : decode l3 = some e3)
    (n1 : l1 ≠ "") (n2 : l2 ≠ "") (n3 : l3 ≠ "") :
    framesToEvents (scanLoop toolRun decode initialStreamState [l1, l2, l3]).2
      = [.classified (getString e1 "type") (extractEventData e1),
         .raw l2,
         .classified (getString e3 "type") (extractEventData e3)] := by
  have s1 : ∀ st, lineStep toolRun decode st l1 = eventStep st e1 := fun st => by
    simp [lineStep, n1, h1]
  have s2 : ∀ st, lineStep toolRun decode st l2 = rawLineStep st l2 := fun st => by
    simp [lineStep, n2, h2]
  have s3 : ∀ st, lineStep toolRun decode st l3 = eventStep st e3 := fun st => by
    simp [lineStep, n3, h3]
  simp only [scanLoop, s1, s2, s3]
  simp only [framesToEvents_append, eventStep_events]
  simp [rawLineStep, framesToEvents]

/-- Witness for C4: lineA / badline / lineC through the concrete decoder. -/
theorem malformed_line_tolerance_witness :
    framesToEvents (scanLoop toolRun demoDecode initialStreamState
        ["lineA", "badline", "lineC"]).2
      = [.classified (getString evTextA "type") (extractEventData evTextA),
         .raw "badline",
         .classified (getString evTextC "type") (extractEventData evTextC)] :=
  malformed_line_tolerance demoDecode "lineA" "badline" "lineC" evTextA evTextC
    rfl rfl rfl (by decide) (by decide) (by decide)

/-- C6: whatever the tool and its stdout, an invocation whose subprocess
exits with status 2 after writing `boom` to stderr produces a terminal
frame that is a normal result envelope (not a protocol error) with the
error flag set and a result text ending in the labelled stderr section
containing `boom` followed by the exit-code-2 marker line. -/
theorem exit2_with_stderr_boom (name : String) (decode : String → Option JObj)
    (lines : List String) :
    ∃ pre r, handleToolsCallStream name decode lines "boom" 2
        = pre ++ [Action.emit (.terminal r)]
      ∧ r.isError = true
      ∧ ∃ p, r.text = p ++ "[stderr]\nboom\n[exit code: 2]" := by
  refine ⟨(scanLoop name decode initialStreamState lines).2.map Action.emit
      ++ [Action.waited 2],
    terminalResult (scanLoop name decode initialStreamState lines).1 "boom" 2,
    by simp [handleToolsCallStream], rfl, ?_⟩
  show ∃ p, composeResult (scanLoop name decode initialStreamState lines).1 "boom" 2
      = p ++ "[stderr]\nboom\n[exit code: 2]"
  simp only [composeResult]
  rw [if_pos (show ("boom" : String) ≠ "" from by decide),
    if_pos (show (2 : Int) ≠ 0 from by decide)]
  simp only [String.append_assoc]
  exact ⟨_, rfl⟩

/-- C7: on the `/mcp` endpoint a body without a method yields the
malformed-request error code -32600, a body naming an unknown method
yields the method-not-found error code -32601, both as error responses,
and the two codes differ. -/
theorem missing_vs_unknown_method (accept : String) :
    dispatchMcp true "" accept = .respondError (-32600) "missing method"
    ∧ (∀ m, m ≠ "" → m ≠ "initialize" → m ≠ "notifications/initialized"
        → m ≠ "tools/list" → m ≠ "tools/call"
        → dispatchMcp true m accept
            = .respondError (-32601) ("method not found: " ++ m))
    ∧ (-32600 : Int) ≠ -32601 := by
  refine ⟨rfl, ?_, by decide⟩
  intro m h0 h1 h2 h3 h4
  simp [dispatchMcp, h0, h1, h2, h3, h4]

/-- Witness for C7 at the unknown method `bogus`. -/
theorem missing_vs_unknown_method_witness :
    dispatchMcp true "bogus" ""
      = .respondError (-32601) ("method not found: " ++ "bogus") :=
  (missing_vs_unknown_method "").2.1 "bogus" (by decide) (by decide) (by decide)
    (by decide) (by decide)

/-- C8: `create` inserts a session under the freshly generated
identifier, `get` on that identifier returns the created session, and
`get` on any identifier never inserted returns absent. -/
theorem session_store_roundtrip (s : SessionMap) (entropy : List Nat) (now : Nat) :
    storeGet (storeCreate s entropy now).2 (storeCreate s entropy now).1.id
        = some (storeCreate s entropy now).1
    ∧ (storeCreate s entropy now).1.id = generateSessionID entropy
    ∧ ∀ id, (∀ p ∈ s, p.1 ≠ id) → storeGet s id = none := by
  refine ⟨by simp [storeGet, storeCreate], rfl, ?_⟩
  intro id h
  have hfind : s.find? (fun p => p.1 == id) = none := by
    rw [List.find?_eq_none]
    intro p hp
    simpa using h p hp
  simp [storeGet, hfind]

/-- Witness for C8: round-trip on a concrete store and an absent id. -/
theorem session_store_roundtrip_witness :
    storeGet (storeCreate [] [0] 5).2 (storeCreate [] [0] 5).1.id
        = some (storeCreate [] [0] 5).1
    ∧ storeGet [] "deadbeef" = none :=
  ⟨(session_store_roundtrip [] [0] 5).1,
   (session_store_roundtrip [] [0] 5).2.2 "deadbeef" (by simp)⟩

/-- C9: when the subprocess starts and exits with status 0, `runCommand`
returns an empty stderr string (whatever the subprocess wrote to
standard error), the full stdout, exit code 0 and no error. -/
theorem runCommand_success_empty_stderr (proc : ProcBehaviour)
    (hstart : proc.startErr = false) (hexit : proc.exitCode = 0) :
    (runCommand proc).2.1 = ""
    ∧ (runCommand proc).1 = proc.stdout
    ∧ (runCommand proc).2.2.1 = 0
    ∧ (runCommand proc).2.2.2 = none := by
  simp [runCommand, hstart, hexit]

/-- Witness for C9: a successful run that did write to stderr still
comes back with an empty stderr component. -/
theorem runCommand_success_empty_stderr_witness :
    (runCommand ⟨false, "out", "diagnostic", 0⟩).2.1 = ""
    ∧ ("diagnostic" : String) ≠ "" :=
  ⟨(runCommand_success_empty_stderr ⟨false, "out", "diagnostic", 0⟩ rfl rfl).1,
   by decide⟩

theorem hexDigit_mem (n : Nat) (h : n < 16) : hexDigit n ∈ hexDigits := by
  interval_cases n <;> decide

theorem flatMap_byteToHex_length (entropy : List Nat) :
    (entropy.flatMap byteToHex).length = 2 * entropy.length := by
  induction entropy with
  | nil => rfl
  | cons b bs ih =>
    show (byteToHex b ++ bs.flatMap byteToHex).length = 2 * (bs.length + 1)
    rw [List.length_append, ih]
    simp [byteToHex]
    omega

theorem flatMap_byteToHex_mem (entropy : List Nat) :
    ∀ c ∈ entropy.flatMap byteToHex, c ∈ hexDigits := by
  intro c hc
  simp only [List.mem_flatMap] at hc
  obtain ⟨b, _, hcb⟩ := hc
  simp only [byteToHex, List.mem_cons, List.not_mem_nil, or_false] at hcb
  rcases hcb with rfl | rfl
  · exact hexDigit_mem _ (by omega)
  · exact hexDigit_mem _ (by omega)

/-- C10: a session identifier generated from the 16 random bytes is
exactly 32 characters of lowercase hex, and consequently every
identifier stored in a registry reachable through `create` has that
shape. -/
theorem session_id_format (entropy : List Nat) (s : SessionMap)
    (hlen : entropy.length = 16) (hs : ReachableStore s) :
    ((generateSessionID entropy).length = 32
      ∧ ∀ c ∈ (generateSessionID entropy).data, c ∈ hexDigits)
    ∧ ∀ p ∈ s, p.1.length = 32 ∧ ∀ c ∈ p.1.data, c ∈ hexDigits := by
  constructor
  · constructor
    · show (entropy.flatMap byteToHex).length = 32
      rw [flatMap_byteToHex_length, hlen]
    · exact flatMap_byteToHex_mem entropy
  · induction hs with
    | empty => simp
    | create s' entropy' now' hs' hlen' ih =>
      intro p hp
      simp only [storeCreate, List.mem_cons] at hp
      rcases hp with rfl | hp
      · refine ⟨?_, flatMap_byteToHex_mem entropy'⟩
        show (entropy'.flatMap byteToHex).length = 32
        rw [flatMap_byteToHex_length, hlen']
      · exact ih p hp

/-- Witness for C10: the all-zero 16-byte entropy. -/
theorem session_id_format_witness :
    (generateSessionID (List.replicate 16 0)).length = 32
    ∧ ∀ c ∈ (generateSessionID (List.replicate 16 0)).data, c ∈ hexDigits :=
  (session_id_format (List.replicate 16 0) [] (by decide) ReachableStore.empty).1

theorem fetch_spawns_models (cache : ModelCache) (modelsOut : Option String) :
    ∀ sp ∈ (fetchAvailableModels cache modelsOut).2, sp = ["models"] := by
  intro sp hsp
  unfold fetchAvailableModels at hsp
  repeat' split at hsp <;> simp_all

theorem finishSetup_spawns (stat : String → Option FileStat) (cmdArgs : List String)
    (cwd stdin reqCwd : String) (spawns : List (List String)) :
    (finishSetup stat cmdArgs cwd stdin reqCwd spawns).2 = spawns := by
  unfold finishSetup
  cases hv : validateCwd stat (if cwd = "" then reqCwd else cwd) <;> simp [hv]

theorem finishSetup_error_code (stat : String → Option FileStat)
    (cmdArgs : List String) (cwd stdin reqCwd : String)
    (spawns : List (List String)) (code : Int) (msg : String)
    (h : (finishSetup stat cmdArgs cwd stdin reqCwd spawns).1
      = .rpcError code msg) : code = -32602 := by
  unfold finishSetup at h
  rcases hv : validateCwd stat (if cwd = "" then reqCwd else cwd) with _ | err
  · simp [hv] at h
  · simp [hv] at h
    exact h.1.symm

theorem setup_spawns_only_models (stat : String → Option FileStat)
    (cache : ModelCache) (modelsOut : Option String) (name : String)
    (arguments : JObj) (reqCwd : String) :
    ∀ sp ∈ (handleToolsCallSetup stat cache modelsOut name arguments reqCwd).2,
      sp = ["models"] := by
  intro sp hsp
  unfold handleToolsCallSetup at hsp
  repeat' split at hsp
  all_goals try (rw [finishSetup_spawns] at hsp)
  all_goals
    exact fetch_spawns_models cache modelsOut sp
      (by simpa [getDefaultModel] using hsp)

/-- C5, counterexample: an `opencode_run` request with no explicit model
and a non-existent working directory is rejected with the
invalid-params error, yet a subprocess (the `models` subcommand used to
resolve the default model) has already been spawned before the
working-directory check, so "no subprocess is started" fails. -/
theorem invalid_cwd_spawn_counterexample :
    handleToolsCallSetup (fun _ => none) ⟨[], false⟩ none toolRun
        [("message", JVal.jstr "hi")] "/does/not/exist"
      = (.rpcError (-32602) "invalid cwd: stat failed", [["models"]])
    ∧ ([["models"]] : List (List String)) ≠ [] :=
  ⟨rfl, by decide⟩

/-- C5, amended: every invalid tool-invocation request (unknown tool,
missing required arguments, or unusable working directory) is rejected
with the invalid-params code -32602 before the tool subprocess starts;
the only subprocess that may have been spawned by then is the `models`
subcommand used to resolve a default model for `opencode_run`. -/
theorem setup_invalid_requests (stat : String → Option FileStat)
    (cache : ModelCache) (modelsOut : Option String) (name : String)
    (arguments : JObj) (reqCwd : String) :
    (∀ sp ∈ (handleToolsCallSetup stat cache modelsOut name arguments reqCwd).2,
        sp = ["models"])
    ∧ (∀ code msg,
        (handleToolsCallSetup stat cache modelsOut name arguments reqCwd).1
            = .rpcError code msg → code = -32602)
    ∧ (name ≠ toolExec → name ≠ toolRun → name ≠ toolModels
        → name ≠ toolSessionList → name ≠ toolAgentList
        → handleToolsCallSetup stat cache modelsOut name arguments reqCwd
            = (.rpcError (-32602) ("unknown tool: " ++ name), []))
    ∧ (∀ a, name = toolExec → decodeExecArgs arguments = some a → a.args = []
        → handleToolsCallSetup stat cache modelsOut name arguments reqCwd
            = (.rpcError (-32602) "missing args", []))
    ∧ (∀ r, name = toolRun → decodeRunArgs arguments = some r → r.message = ""
        → handleToolsCallSetup stat cache modelsOut name arguments reqCwd
            = (.rpcError (-32602) "missing message", []))
    ∧ (∀ a err, name = toolExec → decodeExecArgs arguments = some a
        → a.args ≠ []
        → validateCwd stat (if a.cwd = "" then reqCwd else a.cwd) = some err
        → handleToolsCallSetup stat cache modelsOut name arguments reqCwd
            = (.rpcError (-32602) err, []))
    ∧ (∀ r err, name = toolRun → decodeRunArgs arguments = some r
        → r.message ≠ ""
        → validateCwd stat (if r.cwd = "" then reqCwd else r.cwd) = some err
        → (handleToolsCallSetup stat cache modelsOut name arguments reqCwd).1
            = .rpcError (-32602) err) := by
  refine ⟨setup_spawns_only_models stat cache modelsOut name arguments reqCwd,
    ?_, ?_, ?_, ?_, ?_, ?_⟩
  · intro code msg h
    unfold handleToolsCallSetup at h
    repeat' split at h
    all_goals
      first
        | exact finishSetup_error_code _ _ _ _ _ _ _ _ h
        | simp_all
  · intro h1 h2 h3 h4 h5
    simp [handleToolsCallSetup, h1, h2, h3, h4, h5]
  · intro a hname hdec hargs
    subst hname
    simp [handleToolsCallSetup, hdec, hargs]
  · intro r hname hdec hmsg
    subst hname
    simp [handleToolsCallSetup, toolRun, toolExec, hdec, hmsg]
  · intro a err hname hdec hargs hcwd
    subst hname
    simp [handleToolsCallSetup, finishSetup, hdec, hargs, hcwd]
  · intro r err hname hdec hmsg hcwd
    subst hname
    simp [handleToolsCallSetup, finishSetup, toolRun, toolExec, hdec, hmsg, hcwd]

/-- Witness for C5's amended theorem: the unknown tool `bogus` is
rejected with no spawn at all. -/
theorem setup_invalid_requests_witness :
    handleToolsCallSetup (fun _ => none) ⟨[], false⟩ none "bogus" [] ""
      = (.rpcError (-32602) ("unknown tool: " ++ "bogus"), []) :=
  (setup_invalid_requests (fun _ => none) ⟨[], false⟩ none "bogus" []
    "").2.2.1 (by decide) (by decide) (by decide) (by decide) (by decide)

end OpencodeMcp
